import Mathlib

/-!
# Verification of the Field Extraction & Config Synthesis Pipeline

A shallow embedding of the core of the `config-generator` repository:

* `src/utils/figmaApi.ts` — the design-tree walker (`extractFieldsFromNode`,
  `detectSection`, `detectSubsection`, `findFieldGroups`, `isFieldContainer`,
  `extractFieldLabel`, `sortFieldsByPosition`, `toCamelCase`, `cleanFieldName`,
  `parseFigmaUrl` helpers) and the config synthesizer (`inferFieldType`,
  `inferValidationRules`, `inferTransformationType`, `parseOutputTransform`,
  `generateConfigFromRow`, `generateAllConfigs`).
* `src/utils/excelGenerator.ts` — `generateConsolidatedExcel` /
  `parseConsolidatedExcel`, modelled at the level of cell values.
* `src/components/UI1ExtractConsolidate.tsx` — the consolidation core of
  `handleProcess`.

Conventions of the embedding:

* JavaScript strings are Lean `String`s restricted to ASCII behaviour:
  `toLowerCase`/`toUpperCase`/`trim` and the regex character class `\s` are
  modelled over the ASCII whitespace characters space, tab, `\n`, `\r`.
* JavaScript string truthiness (`if (s)`) is `s ≠ ""` on present strings and
  `false` on `undefined`/`null`; optional strings are `Option String`.
* JavaScript numbers that can only hold integers or `NaN` in this program
  (the `order` fields flowing through `parseInt`) are `Option Int`, with
  `none` playing the role of `NaN`.  Float rounding and the exponential
  `toString` of huge magnitudes are outside the model; every order produced
  by the pipeline is a small positional index.
* TS field names that are Lean keywords are renamed: `section` becomes
  `sectionName` (on context/field/row/screen-context structures).
-/

/-! ## JS-style string primitives (ASCII model) -/

/-- ASCII whitespace, the model of the regex class `\s` and of the characters
removed by `String.prototype.trim`. -/
def isJsWs (c : Char) : Bool :=
  c = ' ' || c = '\t' || c = '\n' || c = '\r'

/-- `String.prototype.trim` (ASCII model). -/
def jsTrim (s : String) : String :=
  String.mk (((s.data.dropWhile isJsWs).reverse.dropWhile isJsWs).reverse)

/-- `String.prototype.toLowerCase` (ASCII model). -/
def jsToLower (s : String) : String :=
  String.mk (s.data.map Char.toLower)

/-- `String.prototype.toUpperCase` (ASCII model). -/
def jsToUpper (s : String) : String :=
  String.mk (s.data.map Char.toUpper)

/-- Case-insensitive prefix test on character lists. -/
def ciPrefixChars : List Char → List Char → Bool
  | [], _ => true
  | _ :: _, [] => false
  | p :: ps, c :: cs => p.toLower = c.toLower && ciPrefixChars ps cs

/-- Case-sensitive prefix test on character lists. -/
def csPrefixChars : List Char → List Char → Bool
  | [], _ => true
  | _ :: _, [] => false
  | p :: ps, c :: cs => p = c && csPrefixChars ps cs

/-- Does `pat` occur (case-insensitively) anywhere in `l`?  Models the
truthiness of `s.match(/pat/i)` for a literal pattern. -/
def ciContainsChars (pat : List Char) : List Char → Bool
  | [] => ciPrefixChars pat []
  | l@(_ :: rest) => ciPrefixChars pat l || ciContainsChars pat rest

/-- Case-insensitive containment on strings. -/
def ciContains (s pat : String) : Bool :=
  ciContainsChars pat.data s.data

/-- Truthiness of `s.match(/p1|p2|…/i)`: some alternative occurs in `s`. -/
def ciContainsAny (s : String) (pats : List String) : Bool :=
  pats.any (ciContains s)

/-- Case-sensitive containment, the model of `String.prototype.includes`. -/
def csContainsChars (pat : List Char) : List Char → Bool
  | [] => csPrefixChars pat []
  | l@(_ :: rest) => csPrefixChars pat l || csContainsChars pat rest

/-- `s.includes(pat)`. -/
def jsIncludes (s pat : String) : Bool :=
  csContainsChars pat.data s.data

/-- Truthiness of an optional JS string: `undefined`, `null` and `""` are
falsy. -/
def strTruthy : Option String → Bool
  | none => false
  | some s => s ≠ ""

/-- First alternative (in order) of `pats` that is a case-insensitive prefix
of `l`, returning its length.  Models the alternation of a regex whose
branches are plain literals at a fixed input position. -/
def firstAltLen : List String → List Char → Option Nat
  | [], _ => none
  | p :: ps, l => if ciPrefixChars p.data l then some p.data.length else firstAltLen ps l

/-- First alternative of `pats` that is a case-insensitive prefix of `l`,
returning the alternative itself (already lower-case in all our uses, which
models `match[1].toLowerCase()` for keyword alternations). -/
def firstAltWord : List String → List Char → Option String
  | [], _ => none
  | p :: ps, l => if ciPrefixChars p.data l then some p else firstAltWord ps l

/-- Leftmost occurrence scan for a keyword alternation: the JS regex engine
tries each start position from the left, and at a position tries the
alternatives in order. -/
def scanFirstAlt (pats : List String) : List Char → Option String
  | [] => none
  | l@(_ :: rest) =>
    match firstAltWord pats l with
    | some w => some w
    | none => scanFirstAlt pats rest

/-- A character matched by `.` in a JS regex without the `s` flag (ASCII
model: everything but the line terminators `\n` and `\r`). -/
def isDotChar (c : Char) : Bool :=
  !(c = '\n' || c = '\r')

/-- A character matched by the class `[:\s]`. -/
def isColonWs (c : Char) : Bool :=
  c = ':' || isJsWs c

/-- Backtracking tail of `…[:\s]*(.+)`: starting from `j` characters of
`rest` consumed by the greedy `[:\s]*`, give characters back until `(.+)`
can match at least one (non-line-terminator) character; the group then
greedily takes the maximal run of `.`-characters. -/
def capBack (rest : List Char) : Nat → Option String
  | 0 =>
    match rest with
    | c :: _ => if isDotChar c then some (String.mk (rest.takeWhile isDotChar)) else none
    | [] => none
  | j + 1 =>
    match (rest.drop (j + 1)) with
    | c :: _ =>
      if isDotChar c then some (String.mk ((rest.drop (j + 1)).takeWhile isDotChar))
      else capBack rest j
    | [] => capBack rest j

/-- The `[:\s]*(.+)` part of the section/subsection capture regexes, applied
right after a matched keyword. -/
def capturePart (rest : List Char) : Option String :=
  capBack rest ((rest.takeWhile isColonWs).length)

/-- Leftmost-match capture for `/(?:alt1|alt2|…)[:\s]*(.+)/i`: scan start
positions left to right; where an alternative matches, run the
`[:\s]*(.+)` continuation (with backtracking); on failure resume the scan
at the next position.  (For the alternation sets used in the source, at most
one alternative can match at a given position.) -/
def scanCapture (pats : List String) : List Char → Option String
  | [] => none
  | l@(_ :: rest) =>
    match firstAltLen pats l with
    | some n =>
      match capturePart (l.drop n) with
      | some cap => some cap
      | none => scanCapture pats rest
    | none => scanCapture pats rest

/-- `String.prototype.split(/\s+/)` (ASCII model): each maximal nonempty run
of whitespace is one separator, so leading/trailing runs contribute empty
pieces.  The boolean argument records whether the previous character was
part of a whitespace run. -/
def splitWsGo : List Char → List Char → Bool → List (List Char)
  | [], cur, _ => [cur.reverse]
  | c :: cs, cur, inRun =>
    if isJsWs c then
      if inRun then splitWsGo cs cur true
      else cur.reverse :: splitWsGo cs [] true
    else splitWsGo cs (c :: cur) false

/-- `s.split(/\s+/)` as a list of strings. -/
def jsSplitWs (s : String) : List String :=
  (splitWsGo s.data [] false).map String.mk

/-- `word.charAt(0).toUpperCase() + word.slice(1)`. -/
def capFirst (w : String) : String :=
  match w.data with
  | [] => ""
  | c :: cs => String.mk (c.toUpper :: cs)

/-- `word.charAt(0).toUpperCase() + word.slice(1).toLowerCase()`. -/
def capFirstLowerRest (w : String) : String :=
  match w.data with
  | [] => ""
  | c :: cs => String.mk (c.toUpper :: cs.map Char.toLower)

/-- `pieces.map((word, i) => i === 0 ? word : capFirst(word)).join('')`. -/
def camelJoin : Bool → List String → String
  | _, [] => ""
  | isFirst, w :: ws => (if isFirst then w else capFirst w) ++ camelJoin false ws

/-- `toCamelCase` from `figmaApi.ts`:
`text.toLowerCase().replace(/[^a-zA-Z0-9\s]/g, '').split(/\s+/)
     .map((word, i) => i === 0 ? word : word.charAt(0).toUpperCase() + word.slice(1))
     .join('')`. -/
def toCamelCase (text : String) : String :=
  camelJoin true
    (((splitWsGo ((jsToLower text).data.filter fun c => c.isAlphanum || isJsWs c) [] false)).map String.mk)

/-! ## Integer printing and `parseInt` -/

/-- The ASCII digit character for `n < 10`. -/
def digitChar (n : Nat) : Char :=
  Char.ofNat (48 + n)

/-- Little-endian decimal digits of a natural number; the fuel (strictly
greater than `n`) makes the recursion structural so that terms reduce. -/
def natDigitsAux : Nat → Nat → List Char
  | 0, _ => []
  | fuel + 1, n =>
    if n < 10 then [digitChar n] else digitChar (n % 10) :: natDigitsAux fuel (n / 10)

/-- Little-endian decimal digits of `n`. -/
def natToRevDigits (n : Nat) : List Char :=
  natDigitsAux (n + 1) n

/-- The decimal representation of a natural number. -/
def natToString (n : Nat) : String :=
  String.mk (natToRevDigits n).reverse

/-- `String(x)` for the integer-or-`NaN` numbers of the model. -/
def numToString : Option Int → String
  | none => "NaN"
  | some i => if i < 0 then "-" ++ natToString i.natAbs else natToString i.natAbs

/-- Accumulating parse of a maximal leading digit run (the core of
`parseInt`). -/
def parseDigitsGo : Nat → List Char → Nat
  | acc, [] => acc
  | acc, c :: cs => if c.isDigit then parseDigitsGo (acc * 10 + (c.toNat - 48)) cs else acc

/-- Parse a nonempty leading digit run; `none` when the first character is
not a digit. -/
def parseDigits : List Char → Option Nat
  | [] => none
  | c :: cs => if c.isDigit then some (parseDigitsGo 0 (c :: cs)) else none

/-- The sign-and-digits part of `parseInt`, after leading whitespace has
been skipped. -/
def jsParseIntChars : List Char → Option Int
  | [] => none
  | c :: rest =>
    if c = '-' then (parseDigits rest).map fun n => -(Int.ofNat n)
    else if c = '+' then (parseDigits rest).map fun n => Int.ofNat n
    else (parseDigits (c :: rest)).map fun n => Int.ofNat n

/-- `parseInt(s)` (ASCII model, no hex autodetection — the pipeline never
feeds `parseInt` a `0x` literal): skip leading whitespace, accept an
optional sign, then require at least one digit; otherwise `NaN`. -/
def jsParseInt (s : String) : Option Int :=
  jsParseIntChars (s.data.dropWhile isJsWs)

/-! ## Data model (`src/utils/types.ts`) -/

/-- The `absoluteBoundingBox` of a Figma node (only the coordinates the
comparator reads; spatial units are modelled as integers). -/
structure Box where
  x : Int
  y : Int
deriving DecidableEq, Repr

/-- `FigmaNode`: `id`, `name`, `type`, optional `characters`, optional
`absoluteBoundingBox` (accessed via an `any`-cast in the source), optional
`children`.  An absent `children` array (`undefined`) is distinguished from
an empty one, because `extractFieldLabel` tests `if (child.children)` where
`[]` is truthy. -/
inductive FigmaNode where
  | mk (id : String) (name : String) (type : String) (characters : Option String)
      (absoluteBoundingBox : Option Box) (children : Option (List FigmaNode))

def FigmaNode.id : FigmaNode → String
  | .mk i _ _ _ _ _ => i

def FigmaNode.name : FigmaNode → String
  | .mk _ n _ _ _ _ => n

def FigmaNode.type : FigmaNode → String
  | .mk _ _ t _ _ _ => t

def FigmaNode.characters : FigmaNode → Option String
  | .mk _ _ _ c _ _ => c

def FigmaNode.absoluteBoundingBox : FigmaNode → Option Box
  | .mk _ _ _ _ b _ => b

def FigmaNode.children : FigmaNode → Option (List FigmaNode)
  | .mk _ _ _ _ _ cs => cs

/-- `FigmaField` (the `ExtractedField` of the spec).  `section` is renamed
`sectionName` (Lean keyword). -/
structure FigmaField where
  sectionName : String
  subsection : String
  fieldName : String
  order : Int
  screenName : String
deriving DecidableEq, Repr

/-- The extraction context threaded through `extractFieldsFromNode`. -/
structure ExtractionContext where
  sectionName : Option String
  subsection : Option String
  screenName : Option String
deriving DecidableEq, Repr

/-- `DBMapping`. -/
structure DBMapping where
  fieldName : String
  dbColumn : String
deriving DecidableEq, Repr

/-- `ComputedField`. -/
structure ComputedField where
  fieldName : String
  formula : String
  isComputed : Bool
deriving DecidableEq, Repr

/-- `ConsolidatedRow`; `section` is renamed `sectionName`, and `order`
(a JS number that flows through `parseInt` on import) is integer-or-`NaN`. -/
structure ConsolidatedRow where
  sectionName : String
  subsection : String
  field_name : String
  order : Option Int
  screen_name : String
  DB_mapping : String
  is_computed : String
  formula : String
  plan_type : String
deriving DecidableEq, Repr

/-- `ValidationError`; the TS field `type : 'error' | 'warning'` is renamed
`severity`. -/
structure ValidationError where
  row : Nat
  field : String
  message : String
  severity : String
deriving DecidableEq, Repr

/-- `ValidationRule` (the only `value` ever set is the number `0`). -/
structure ValidationRule where
  type : String
  value : Option Int
  message : Option String
deriving DecidableEq, Repr

/-- `UIConfig`. -/
structure UIConfig where
  label : String
  placeholder : String
  order : Option Int
  help_text : Option String
deriving DecidableEq, Repr

/-- `OutputTransform`. -/
structure OutputTransform where
  enabled : Bool
  output_field_path : String
  transformation_type : String
  array_item_property : Option String
  array_item_type : Option String
  create_array_item : Option Bool
deriving DecidableEq, Repr

/-- `FieldConfig` (`api_config` is never set by the generator and is
omitted). -/
structure FieldConfig where
  name : String
  type : String
  ui_config : UIConfig
  validation_rules : List ValidationRule
  options : List String
  output_transform : OutputTransform
deriving DecidableEq, Repr

/-- `ScreenContext`; `section` is renamed `sectionName`. -/
structure ScreenContext where
  screen : String
  sectionName : String
  sub_section : Option String
  order : Option Int
  disabled : Bool
deriving DecidableEq, Repr

/-- `ConfigJSON`. -/
structure ConfigJSON where
  type : String
  subType : String
  module : String
  field : FieldConfig
  screen_contexts : List ScreenContext
deriving DecidableEq, Repr

/-! ## DesignTree walker (`figmaApi.ts`) -/

/-- The screen-name vocabulary scan: `node.name.match(/(create|view|edit|delete)/i)`
followed by `match[1].toLowerCase()`. -/
def findScreenKeyword (s : String) : Option String :=
  scanFirstAlt ["create", "view", "edit", "delete"] s.data

/-- `detectSection`: an all-caps text leaf (length > 3, only `[A-Z\s]`)
camel-cased, or a node whose name contains `section` but not
`subsection`/`sub-section`, capturing via `/section[:\s]*(.+)/i`. -/
def detectSection (node : FigmaNode) : Option String :=
  let fromText : Option String :=
    if node.type = "TEXT" && strTruthy node.characters then
      let text := jsTrim (node.characters.getD "")
      if text = jsToUpper text && text.length > 3
          && text.data.all (fun c => ('A' ≤ c && c ≤ 'Z') || isJsWs c) then
        some (toCamelCase text)
      else none
    else none
  match fromText with
  | some s => some s
  | none =>
    if ciContains node.name "section"
        && !(ciContainsAny node.name ["subsection", "sub-section"]) then
      match scanCapture ["section"] node.name.data with
      | some cap => some (toCamelCase cap)
      | none => none
    else none

/-- `detectSubsection`: a node name containing `subsection`/`sub-section`/
`special` (capturing via `/(?:subsection|sub-section|special)[:\s]*(.+)/i`,
falling through when the capture fails), or a text leaf whose trimmed
content starts with one of the recognized labels. -/
def detectSubsection (node : FigmaNode) : Option String :=
  let fromTextLeaf : Option String :=
    if node.type = "TEXT" && strTruthy node.characters then
      let text := jsTrim (node.characters.getD "")
      match firstAltWord ["special", "in network", "out of network", "other"] text.data with
      | some _ => some (toCamelCase text)
      | none => none
    else none
  if ciContainsAny node.name ["subsection", "sub-section", "special"] then
    match scanCapture ["subsection", "sub-section", "special"] node.name.data with
    | some cap => some (toCamelCase cap)
    | none => fromTextLeaf
  else fromTextLeaf

/-- `isFieldContainer`: a node with children that either pairs a label-ish
child with an input-ish child, or whose own name matches the input-type
vocabulary. -/
def isFieldContainer (node : FigmaNode) : Bool :=
  match node.children with
  | none => false
  | some cs =>
    if cs.length = 0 then false
    else
      let hasLabelChild := cs.any fun c => c.type = "TEXT" || ciContains c.name "label"
      let hasInputChild := cs.any fun c =>
        ciContainsAny c.name ["input", "dropdown", "select", "textbox", "field"]
          || c.type = "INSTANCE" || c.type = "COMPONENT"
      let nameIndicatesField :=
        ciContainsAny node.name ["field", "input", "dropdown", "select", "form-control"]
      (hasLabelChild && hasInputChild) || nameIndicatesField

mutual

/-- The recursive descent of `findFieldGroups` into a non-container node's
children (`else if (node.children) { … }`). -/
def findFieldGroupsIn : FigmaNode → List FigmaNode
  | .mk _ _ _ _ _ none => []
  | .mk _ _ _ _ _ (some cs) => findFieldGroups cs

/-- `findFieldGroups`: collect field containers; below a non-container,
search its children recursively (search stops descending once a node is
classified as a container). -/
def findFieldGroups : List FigmaNode → List FigmaNode
  | [] => []
  | n :: ns =>
    if isFieldContainer n then n :: findFieldGroups ns
    else findFieldGroupsIn n ++ findFieldGroups ns

end

/-- The anchored strip `name.replace(/^(field|input|label)[:\s]+/i, '')`. -/
def stripLabelTok (s : String) : String :=
  match firstAltLen ["field", "input", "label"] s.data with
  | some n =>
    let rest := s.data.drop n
    let run := (rest.takeWhile isColonWs).length
    if run ≥ 1 then String.mk (rest.drop run) else s
  | none => s

/-- `replace(/[\n\r]+/g, ' ')`: each maximal run of line terminators becomes
one space. -/
def collapseNlGo : List Char → Bool → List Char
  | [], _ => []
  | c :: cs, inRun =>
    if c = '\n' || c = '\r' then
      if inRun then collapseNlGo cs true else ' ' :: collapseNlGo cs true
    else c :: collapseNlGo cs false

/-- `cleanFieldName`. -/
def cleanFieldName (name : String) : String :=
  jsTrim (String.mk (collapseNlGo (stripLabelTok name).data false))

mutual

/-- `extractFieldLabel`: depth-first search for the first qualifying text
leaf, recursing into any child that *has* a `children` array (an empty array
is truthy in JS), falling back to the cleaned group name. -/
def extractFieldLabel : FigmaNode → Option String
  | .mk _ _ _ _ _ none => none
  | g@(.mk _ _ _ _ _ (some cs)) =>
    match labelFromChildren cs with
    | some l => some l
    | none => some (cleanFieldName g.name)

/-- The per-child loop body of `extractFieldLabel`. -/
def labelFromChildren : List FigmaNode → Option String
  | [] => none
  | c :: cs =>
    let textHit : Option String :=
      if c.type = "TEXT" && strTruthy c.characters then
        let label := jsTrim (c.characters.getD "")
        if label ≠ "" && (firstAltWord ["select", "enter", "choose"] label.data).isNone
            && label ≠ "*" then
          some label
        else none
      else none
    match textHit with
    | some l => some l
    | none =>
      let nested : Option String :=
        match c.children with
        | some _ =>
          match extractFieldLabel c with
          | some s => if s ≠ "" then some s else none
          | none => none
        | none => none
      match nested with
      | some l => some l
      | none => labelFromChildren cs

end

/-- The row/column comparator of `sortFieldsByPosition` (tolerance 20;
returns 0 when either node lacks a bounding box). -/
def cmpNodes (a b : FigmaNode) : Int :=
  match a.absoluteBoundingBox, b.absoluteBoundingBox with
  | some ab, some bb =>
    let rowDiff := ab.y - bb.y
    if rowDiff.natAbs > 20 then rowDiff else ab.x - bb.x
  | _, _ => 0

/-- Stable insertion step: `x` (earlier in the original order than everything
in the sorted tail) is placed before the first element it does not strictly
follow. -/
def insertCmp (cmp : α → α → Int) (x : α) : List α → List α
  | [] => [x]
  | y :: ys => if cmp x y ≤ 0 then x :: y :: ys else y :: insertCmp cmp x ys

/-- A stable comparison sort.  ECMAScript requires `Array.prototype.sort` to
be stable; for consistent comparators every stable sort produces the same
output, and this fixes the standard stable insertion sort as the model. -/
def insertionSortJS (cmp : α → α → Int) : List α → List α
  | [] => []
  | x :: xs => insertCmp cmp x (insertionSortJS cmp xs)

/-- `sortFieldsByPosition`. -/
def sortFieldsByPosition (fieldGroups : List FigmaNode) : List FigmaNode :=
  insertionSortJS cmpNodes fieldGroups

/-- Truthiness of `context.section`. -/
def sectionTruthy (ctx : ExtractionContext) : Bool :=
  strTruthy ctx.sectionName

/-- The `sortedFields.forEach((fieldGroup, index) => …)` emission loop:
`index` counts every sorted group (also the ones whose label is falsy and
which are therefore skipped). -/
def emitBatch (ctx : ExtractionContext) : List FigmaNode → Nat → List FigmaField
  | [], _ => []
  | g :: gs, idx =>
    (match extractFieldLabel g with
      | some fn =>
        if fn ≠ "" then
          [{ sectionName := ctx.sectionName.getD ""
             subsection := if strTruthy ctx.subsection then ctx.subsection.getD "" else ""
             fieldName := fn
             order := (idx : Int) + 1
             screenName := if strTruthy ctx.screenName then ctx.screenName.getD "" else "create" }]
        else []
      | none => []) ++ emitBatch ctx gs (idx + 1)

/-- The context refinements at the top of `extractFieldsFromNode`: screen
name (first `FRAME` with a vocabulary keyword), then section (resetting the
subsection), then subsection (requires a truthy section). -/
def refineContext (node : FigmaNode) (ctx : ExtractionContext) : ExtractionContext :=
  let ctx1 :=
    if !(strTruthy ctx.screenName) && node.type = "FRAME" then
      match findScreenKeyword node.name with
      | some w => { ctx with screenName := some w }
      | none => ctx
    else ctx
  let ctx2 :=
    match detectSection node with
    | some s => if s ≠ "" then { ctx1 with sectionName := some s, subsection := none } else ctx1
    | none => ctx1
  match detectSubsection node with
  | some s => if s ≠ "" && sectionTruthy ctx2 then { ctx2 with subsection := some s } else ctx2
  | none => ctx2

mutual

/-- `extractFieldsFromNode`: refine the context, emit one batch of fields
from the field groups found below this node (when a section is active), then
recurse into every child with the refined context. -/
def extractFieldsFromNode : FigmaNode → ExtractionContext → List FigmaField
  | node@(.mk _ _ _ _ _ (some cs)), ctx =>
    let ctx3 := refineContext node ctx
    if cs.length > 0 then
      let fieldGroups := findFieldGroups cs
      let batch :=
        if fieldGroups.length > 0 && sectionTruthy ctx3 then
          emitBatch ctx3 (sortFieldsByPosition fieldGroups) 0
        else []
      batch ++ extractFieldsList cs ctx3
    else []
  | .mk _ _ _ _ _ none, _ => []

/-- The `for (const child of node.children)` recursion. -/
def extractFieldsList : List FigmaNode → ExtractionContext → List FigmaField
  | [], _ => []
  | n :: ns, ctx => extractFieldsFromNode n ctx ++ extractFieldsList ns ctx

end

/-! ## Extraction fallback and pipeline (`fetchFigmaData`) -/

/-- Modelled from the spec: `aggressiveFieldExtraction` is called by
`fetchFigmaData` but its definition is not among the provided sources.
Per spec §4.3 a text-leaf node is a candidate field when its name or content
matches a broader pattern set: an explicit `field:`/`input:` prefix, a
trailing `label`, or one of the domain keywords
name/number/date/amount/deductible/premium/coverage. -/
def aggroPat (s : String) : Bool :=
  let l := jsToLower s
  csPrefixChars "field:".data l.data || csPrefixChars "input:".data l.data
    || csPrefixChars "label".data.reverse l.data.reverse
    || ["name", "number", "date", "amount", "deductible", "premium", "coverage"].any
        (fun kw => jsIncludes l kw)

/-- Modelled from the spec: is this node a fallback candidate (a text leaf
matching `aggroPat` on its name or content)? -/
def isAggressiveCandidate (n : FigmaNode) : Bool :=
  n.type = "TEXT" && (aggroPat n.name || aggroPat (n.characters.getD ""))

mutual

/-- Modelled from the spec: collect fallback candidates in traversal
(pre-)order, ignoring section/subsection context entirely. -/
def aggressiveCollect : FigmaNode → List FigmaNode
  | n@(.mk _ _ _ _ _ none) => if isAggressiveCandidate n then [n] else []
  | n@(.mk _ _ _ _ _ (some cs)) =>
    (if isAggressiveCandidate n then [n] else []) ++ aggressiveCollectList cs

/-- Modelled from the spec: the child traversal of `aggressiveCollect`. -/
def aggressiveCollectList : List FigmaNode → List FigmaNode
  | [] => []
  | n :: ns => aggressiveCollect n ++ aggressiveCollectList ns

end

/-- Modelled from the spec: number the candidates sequentially in traversal
order; the label is the trimmed text content when present, else the node
name; section/subsection are left empty and the screen defaults to
`create`. -/
def aggroEmit : List FigmaNode → Nat → List FigmaField
  | [], _ => []
  | n :: ns, idx =>
    { sectionName := ""
      subsection := ""
      fieldName := if strTruthy n.characters then jsTrim (n.characters.getD "") else n.name
      order := (idx : Int) + 1
      screenName := "create" } :: aggroEmit ns (idx + 1)

/-- Modelled from the spec: the looser single-heuristic fallback pass of
§4.3 (`aggressiveFieldExtraction`, absent from the provided sources). -/
def aggressiveFieldExtraction (node : FigmaNode) : List FigmaField :=
  aggroEmit (aggressiveCollect node) 0

/-- The extraction portion of `fetchFigmaData` (after the node has been
fetched): run the primary walk with an empty context; on an empty result run
the fallback, returning its fields when it found any and the (empty) primary
result otherwise. -/
def pipelineExtract (node : FigmaNode) : List FigmaField :=
  let fields := extractFieldsFromNode node ⟨none, none, none⟩
  if fields.length = 0 then
    let aggressiveFields := aggressiveFieldExtraction node
    if aggressiveFields.length > 0 then aggressiveFields else fields
  else fields

/-! ## Config synthesizer (`jsonGenerator` part of `figmaApi.ts`) -/

/-- `inferFieldType`: ordered substring match over the lower-cased field
name. -/
def inferFieldType (fieldName : String) : String :=
  let name := jsToLower fieldName
  if jsIncludes name "currency" || jsIncludes name "amount" || jsIncludes name "premium" then
    "currency-input"
  else if jsIncludes name "date" then "date"
  else if jsIncludes name "email" then "email"
  else if jsIncludes name "phone" || jsIncludes name "tel" then "tel"
  else if jsIncludes name "dropdown" || jsIncludes name "select" then "customSelect"
  else if jsIncludes name "number" || jsIncludes name "count" || jsIncludes name "age" then
    "number"
  else if jsIncludes name "percent" || jsIncludes name "percentage" then "percentage"
  else "text"

/-- `inferValidationRules`. -/
def inferValidationRules (fieldName fieldType : String) (isRequired : Bool) :
    List ValidationRule :=
  (if isRequired then
    [{ type := "required", value := none, message := some (fieldName ++ " is required") }]
  else [])
  ++ (if fieldType = "email" then
    [{ type := "email", value := none,
       message := some "Please enter a valid email address" }]
  else [])
  ++ (if fieldType = "number" || fieldType = "currency-input" then
    [{ type := "min", value := some 0, message := some "Value cannot be negative" }]
  else [])

/-- `inferTransformationType`: `amount_object` exactly for currency fields
whose DB mapping contains the (case-sensitive) token `Balance`. -/
def inferTransformationType (dbMapping fieldType : String) : String :=
  if fieldType = "currency-input" && jsIncludes dbMapping "Balance" then "amount_object"
  else "plain_value"

/-- `parseOutputTransform`. -/
def parseOutputTransform (row : ConsolidatedRow) (fieldType : String) : OutputTransform :=
  let transformationType := inferTransformationType row.DB_mapping fieldType
  if transformationType = "amount_object" then
    let name := jsToLower row.field_name
    let arrayItemType :=
      if jsIncludes name "deductible" then "DEDUCTIBLE"
      else if jsIncludes name "copay" then "COPAY"
      else if jsIncludes name "coinsurance" then "COINSURANCE"
      else if jsIncludes name "oop" || jsIncludes name "out of pocket" then "OOP_MAX"
      else ""
    { enabled := true
      output_field_path := row.DB_mapping
      transformation_type := transformationType
      array_item_property := some "empValue"
      array_item_type := some arrayItemType
      create_array_item := some true }
  else
    { enabled := true
      output_field_path := row.DB_mapping
      transformation_type := transformationType
      array_item_property := none
      array_item_type := none
      create_array_item := none }

/-- The lower-camel identifier built by `generateConfigFromRow`:
`row.field_name.replace(/[^a-zA-Z0-9\s]/g, '').split(/\s+/)
   .map((w, i) => i === 0 ? w.toLowerCase()
                          : w.charAt(0).toUpperCase() + w.slice(1).toLowerCase())
   .join('')`. -/
def camelJoin2 : Bool → List String → String
  | _, [] => ""
  | isFirst, w :: ws =>
    (if isFirst then jsToLower w else capFirstLowerRest w) ++ camelJoin2 false ws

/-- The field-name normalization of `generateConfigFromRow`. -/
def camelName (s : String) : String :=
  camelJoin2 true
    ((splitWsGo (s.data.filter fun c => c.isAlphanum || isJsWs c) [] false).map String.mk)

/-- The screen-context record pushed by both `generateConfigFromRow` and
`generateAllConfigs` (`sub_section: row.subsection || undefined`). -/
def mkScreenCtx (row : ConsolidatedRow) : ScreenContext :=
  { screen := row.screen_name
    sectionName := row.sectionName
    sub_section := if row.subsection ≠ "" then some row.subsection else none
    order := row.order
    disabled := false }

/-- `generateConfigFromRow`. -/
def generateConfigFromRow (row : ConsolidatedRow) : ConfigJSON :=
  let fieldType := inferFieldType row.field_name
  let validationRules := inferValidationRules row.field_name fieldType true
  let outputTransform := parseOutputTransform row fieldType
  let fieldNameCamel := camelName row.field_name
  { type := jsToUpper row.plan_type
    subType := "field"
    module := "CPQ"
    field :=
      { name := fieldNameCamel
        type := fieldType
        ui_config :=
          { label := row.field_name
            placeholder := if fieldType = "currency-input" then "0.00" else row.field_name
            order := row.order
            help_text := none }
        validation_rules := validationRules
        options := []
        output_transform := outputTransform }
    screen_contexts := [mkScreenCtx row] }

/-- The grouping key of `generateAllConfigs`:
`` `${row.field_name}_${row.plan_type}` ``. -/
def rowKey (row : ConsolidatedRow) : String :=
  row.field_name ++ "_" ++ row.plan_type

/-- Appending a screen context to an existing config (the mutation of the
aliased map entry in `generateAllConfigs`). -/
def pushCtx (c : ConfigJSON) (row : ConsolidatedRow) : ConfigJSON :=
  { c with screen_contexts := c.screen_contexts ++ [mkScreenCtx row] }

/-- One `rows.forEach` step of `generateAllConfigs`, on the insertion-ordered
association list that models the JS `Map` (whose values alias the entries of
the `configs` array). -/
def gacStep (acc : List (String × ConfigJSON)) (row : ConsolidatedRow) :
    List (String × ConfigJSON) :=
  let fieldKey := rowKey row
  if acc.any (fun e => e.1 == fieldKey) then
    acc.map fun e => if e.1 == fieldKey then (e.1, pushCtx e.2 row) else e
  else acc ++ [(fieldKey, generateConfigFromRow row)]

/-- `generateAllConfigs`: group rows by the joined key, creating a config on
first sighting and appending a screen context on every later one. -/
def generateAllConfigs (rows : List ConsolidatedRow) : List ConfigJSON :=
  (rows.foldl gacStep []).map Prod.snd

/-! ## Consolidator (`handleProcess` in `UI1ExtractConsolidate.tsx`) -/

/-- Lookup in a JS `Map` built from an entry list: later entries overwrite
earlier ones (last-write-wins). -/
def jsMapGet (entries : List (String × β)) (k : String) : Option β :=
  entries.foldl (fun acc e => if e.1 = k then some e.2 else acc) none

/-- One consolidated row (the `figmaFields.map` body of `handleProcess`). -/
def buildConsolidatedRow (dbMappings : List DBMapping)
    (computedFields : List ComputedField) (planType : String)
    (field : FigmaField) : ConsolidatedRow :=
  let dbMappingEntries := dbMappings.map fun m => (jsToLower m.fieldName, m.dbColumn)
  let computedEntries := computedFields.map fun f => (jsToLower f.fieldName, f)
  let fieldNameLower := jsToLower field.fieldName
  let dbMapping := (jsMapGet dbMappingEntries fieldNameLower).getD ""
  let computedField := jsMapGet computedEntries fieldNameLower
  { sectionName := field.sectionName
    subsection := field.subsection
    field_name := field.fieldName
    order := some field.order
    screen_name := field.screenName
    DB_mapping := dbMapping
    is_computed := if computedField.isSome then "YES" else "NO"
    formula := (computedField.map ComputedField.formula).getD ""
    plan_type := planType }

/-- The two possible diagnostics of one row (`rows.forEach` body); `n` is the
1-based row number. -/
def rowDiagnostics (n : Nat) (row : ConsolidatedRow) : List ValidationError :=
  (if row.DB_mapping = "" then
    [{ row := n, field := row.field_name, message := "Missing DB mapping",
       severity := "error" }]
  else [])
  ++ (if row.is_computed = "YES" && row.formula = "" then
    [{ row := n, field := row.field_name,
       message := "Computed field is missing formula", severity := "error" }]
  else [])

/-- The validation loop of `handleProcess`, numbering rows from `n`. -/
def mkErrors : List ConsolidatedRow → Nat → List ValidationError
  | [], _ => []
  | row :: rest, n => rowDiagnostics n row ++ mkErrors rest (n + 1)

/-- The consolidation core of `handleProcess`: build one row per extracted
field (in input order) and collect the diagnostics with 1-based row
numbers. -/
def consolidate (figmaFields : List FigmaField) (dbMappings : List DBMapping)
    (computedFields : List ComputedField) (planType : String) :
    List ConsolidatedRow × List ValidationError :=
  let rows := figmaFields.map (buildConsolidatedRow dbMappings computedFields planType)
  (rows, mkErrors rows 1)

/-! ## Excel export/import (`excelGenerator.ts`) -/

/-- A worksheet cell value: a string or a (integer-or-`NaN`) number. -/
inductive CellValue where
  | str (s : String)
  | num (j : Option Int)
deriving DecidableEq, Repr

/-- `cell.value?.toString()` on a present cell. -/
def cellToString : CellValue → String
  | .str s => s
  | .num j => numToString j

/-- The header row written by `generateConsolidatedExcel`. -/
def headerRow : List CellValue :=
  [.str "Section", .str "Subsection", .str "Field Name", .str "Order",
   .str "Screen Name", .str "DB Mapping", .str "Is Computed", .str "Formula",
   .str "Plan Type"]

/-- One data row written by `worksheet.addRow(row)` under the nine column
keys. -/
def exportRow (r : ConsolidatedRow) : List CellValue :=
  [.str r.sectionName, .str r.subsection, .str r.field_name, .num r.order,
   .str r.screen_name, .str r.DB_mapping, .str r.is_computed, .str r.formula,
   .str r.plan_type]

/-- `generateConsolidatedExcel`, modelled as the grid of cell values it
writes (styling, colors and notes do not affect the values). -/
def generateConsolidatedExcel (rows : List ConsolidatedRow) : List (List CellValue) :=
  headerRow :: rows.map exportRow

/-- `row.getCell(i+1).value?.toString()`: `none` models an absent cell. -/
def cellString (cells : List CellValue) (i : Nat) : Option String :=
  (cells.get? i).map cellToString

/-- `row.getCell(i+1).value?.toString().trim() || dflt`. -/
def strCol (cells : List CellValue) (i : Nat) (dflt : String) : String :=
  let s := jsTrim ((cellString cells i).getD "")
  if s = "" then dflt else s

/-- The `eachRow` body of `parseConsolidatedExcel` for one data row; rows
whose parsed `field_name` is falsy are skipped. -/
def importRow (cells : List CellValue) : Option ConsolidatedRow :=
  let r : ConsolidatedRow :=
    { sectionName := strCol cells 0 ""
      subsection := strCol cells 1 ""
      field_name := strCol cells 2 ""
      order := jsParseInt (let s := (cellString cells 3).getD ""; if s = "" then "0" else s)
      screen_name := strCol cells 4 "create"
      DB_mapping := strCol cells 5 ""
      is_computed := strCol cells 6 "NO"
      formula := strCol cells 7 ""
      plan_type := strCol cells 8 "MEDICAL" }
  if r.field_name = "" then none else some r

/-- `parseConsolidatedExcel` (row 1 is the header). -/
def parseConsolidatedExcel (table : List (List CellValue)) : List ConsolidatedRow :=
  match table with
  | [] => []
  | _hdr :: data => data.filterMap importRow

/-! ## Specification-side auxiliary definitions -/

/-- The horizontal position a comparator call reads (0 for a missing box;
only used under a hypothesis that boxes are present). -/
def nodeX (g : FigmaNode) : Int :=
  (g.absoluteBoundingBox.map Box.x).getD 0

/-- The vertical position a comparator call reads. -/
def nodeY (g : FigmaNode) : Int :=
  (g.absoluteBoundingBox.map Box.y).getD 0

/-- A string equal to its own trim, or trimming to empty (i.e. carrying no
leading/trailing whitespace, or consisting only of whitespace). -/
def trimOrBlank (s : String) : Prop :=
  jsTrim s = s ∨ jsTrim s = ""

/-- A consolidated row that the nine-column tabular form can carry
faithfully: every string field is trimmed or pure whitespace and the field
name is nonempty and trimmed (a row whose field name trims to empty is
dropped on re-import). -/
def rowExportable (r : ConsolidatedRow) : Prop :=
  trimOrBlank r.sectionName ∧ trimOrBlank r.subsection
    ∧ jsTrim r.field_name = r.field_name ∧ r.field_name ≠ ""
    ∧ trimOrBlank r.screen_name ∧ trimOrBlank r.DB_mapping
    ∧ trimOrBlank r.is_computed ∧ trimOrBlank r.formula ∧ trimOrBlank r.plan_type

/-- What one export/import cycle does to a row: fields sourced from an
empty-or-whitespace column come back as the empty string for section,
subsection, DB mapping and formula, and as the defaults `create` / `NO` /
`MEDICAL` for screen name, is-computed and plan type; everything else is
unchanged. -/
def fixRow (r : ConsolidatedRow) : ConsolidatedRow :=
  { sectionName := if jsTrim r.sectionName = "" then "" else r.sectionName
    subsection := if jsTrim r.subsection = "" then "" else r.subsection
    field_name := r.field_name
    order := r.order
    screen_name := if jsTrim r.screen_name = "" then "create" else r.screen_name
    DB_mapping := if jsTrim r.DB_mapping = "" then "" else r.DB_mapping
    is_computed := if jsTrim r.is_computed = "" then "NO" else r.is_computed
    formula := if jsTrim r.formula = "" then "" else r.formula
    plan_type := if jsTrim r.plan_type = "" then "MEDICAL" else r.plan_type }

/-- The distinct row keys of `generateAllConfigs` in first-seen order,
starting from an already-seen key list. -/
def firstKeysFrom (ks : List String) : List ConsolidatedRow → List String
  | [] => ks
  | r :: rs => firstKeysFrom (if rowKey r ∈ ks then ks else ks ++ [rowKey r]) rs

/-- The distinct row keys in first-seen order. -/
def firstKeys (rows : List ConsolidatedRow) : List String :=
  firstKeysFrom [] rows

/-- The config record that `generateAllConfigs` ends up holding for key `k`:
the config synthesized from the first row with that key, whose screen
contexts are those of *all* rows with that key, in row order.  (The `none`
branch is unreachable when `k` is a key of some row.) -/
def mergedRecord (rows : List ConsolidatedRow) (k : String) : ConfigJSON :=
  match rows.find? (fun r => rowKey r == k) with
  | some r0 =>
    { generateConfigFromRow r0 with
      screen_contexts := (rows.filter (fun r => rowKey r == k)).map mkScreenCtx }
  | none => generateConfigFromRow ⟨"", "", "", none, "", "", "", "", ""⟩


/-! ## Concrete fixtures used by the claim theorems -/

/-- A bare text leaf on which the primary walk and the fallback both find
nothing. -/
def c1LeafNode : FigmaNode :=
  .mk "w" "x" "TEXT" none none none

/-- The "Annual Deductible" consolidated row of the spec's example. -/
def c2Row : ConsolidatedRow :=
  { sectionName := "benefits", subsection := "", field_name := "Annual Deductible",
    order := some 1, screen_name := "create", DB_mapping := "Coverage.DeductibleBalance",
    is_computed := "NO", formula := "", plan_type := "MEDICAL" }

/-- A field group: a frame named `Field: First Name` holding one text
label. -/
def c3LeafNode : FigmaNode :=
  .mk "L" "lbl" "TEXT" (some "First Name") none none

/-- The field-group frame. -/
def c3GroupNode : FigmaNode :=
  .mk "G" "Field: First Name" "FRAME" none none (some [c3LeafNode])

/-- A wrapper that is not itself a field container. -/
def c3WrapNode : FigmaNode :=
  .mk "B" "wrapper" "GROUP" none none (some [c3GroupNode])

/-- A section frame two levels above the field group. -/
def c3RootNode : FigmaNode :=
  .mk "R" "Section: Demographics" "FRAME" none none (some [c3WrapNode])

/-- A row whose screen name is sourced from an empty column. -/
def c4Row : ConsolidatedRow :=
  { sectionName := "sec", subsection := "", field_name := "Fld", order := some 3,
    screen_name := "", DB_mapping := "db", is_computed := "NO", formula := "",
    plan_type := "MEDICAL" }

/-- A fully-populated, trimmed row. -/
def c4GoodRow : ConsolidatedRow :=
  { sectionName := "sec", subsection := "", field_name := "Name", order := some 1,
    screen_name := "create", DB_mapping := "Tbl.Col", is_computed := "NO", formula := "",
    plan_type := "MEDICAL" }

/-- An extracted field with no DB mapping supplied. -/
def c5Field : FigmaField :=
  { sectionName := "s", subsection := "", fieldName := "Field1", order := 1,
    screenName := "create" }

/-- Same-row group with the larger horizontal position. -/
def c6cxA : FigmaNode := .mk "A" "ga" "FRAME" none (some ⟨10, 0⟩) none

/-- A group with no spatial data sitting between the other two. -/
def c6cxN : FigmaNode := .mk "N" "gn" "FRAME" none none none

/-- Same-row group with the smaller horizontal position. -/
def c6cxB : FigmaNode := .mk "Bc" "gb" "FRAME" none (some ⟨0, 0⟩) none

/-- A boxed group for the C6 witness. -/
def c6wB : FigmaNode := .mk "wB" "wb" "FRAME" none (some ⟨0, 0⟩) none

/-- A boxless group for the C6 witness. -/
def c6wN : FigmaNode := .mk "wN" "wn" "FRAME" none none none

/-- Two rows with different `(field_name, plan_type)` pairs but the same
joined key, for C7's counterexample. -/
def c7RowA : ConsolidatedRow :=
  { sectionName := "s", subsection := "", field_name := "X_Y", order := some 1,
    screen_name := "create", DB_mapping := "db", is_computed := "NO", formula := "",
    plan_type := "Z" }

/-- See `c7RowA`. -/
def c7RowB : ConsolidatedRow :=
  { sectionName := "s", subsection := "", field_name := "X", order := some 2,
    screen_name := "view", DB_mapping := "db", is_computed := "NO", formula := "",
    plan_type := "Y_Z" }

/-- A one-section, one-field tree for the C8 witness. -/
def c8DemoNode : FigmaNode :=
  .mk "P" "section: contact" "FRAME" none none
    (some [.mk "G" "field one" "FRAME" none none
      (some [.mk "L" "lbl" "TEXT" (some "Email") none none])])

/-- A currency-typed row for C9's counterexample. -/
def c9Row : ConsolidatedRow :=
  { sectionName := "s", subsection := "", field_name := "Monthly Premium", order := some 2,
    screen_name := "create", DB_mapping := "X", is_computed := "NO", formula := "",
    plan_type := "MEDICAL" }

/-- Two rows with different `(field_name, plan_type)` pairs merged by the
joined key, for C10. -/
def c10RowA : ConsolidatedRow :=
  { sectionName := "s", subsection := "", field_name := "A_B", order := some 1,
    screen_name := "create", DB_mapping := "db", is_computed := "NO", formula := "",
    plan_type := "C" }

/-- See `c10RowA`. -/
def c10RowB : ConsolidatedRow :=
  { sectionName := "s", subsection := "", field_name := "A", order := some 2,
    screen_name := "view", DB_mapping := "db", is_computed := "NO", formula := "",
    plan_type := "B_C" }

/-- The single field extracted from `c8DemoNode`. -/
def c8DemoField : FigmaField :=
  { sectionName := "contact", subsection := "", fieldName := "Email", order := 1,
    screenName := "create" }

/-! ## Lemmas: decimal printing round-trips through `parseInt` -/

theorem digitChar_toNat (n : Nat) (h : n < 10) : (digitChar n).toNat = 48 + n := by
  interval_cases n <;> decide

theorem digitChar_isDigit (n : Nat) (h : n < 10) : (digitChar n).isDigit = true := by
  interval_cases n <;> decide

theorem natDigitsAux_all_digits :
    ∀ fuel n, ∀ c ∈ natDigitsAux fuel n, c.isDigit = true := by
  intro fuel
  induction fuel with
  | zero => intro n c hc; simp [natDigitsAux] at hc
  | succ f ih =>
    intro n c hc
    rw [natDigitsAux] at hc
    by_cases h : n < 10
    · simp [h] at hc
      subst hc
      exact digitChar_isDigit n h
    · simp [h] at hc
      rcases hc with hc | hc
      · subst hc
        exact digitChar_isDigit _ (Nat.mod_lt _ (by norm_num))
      · exact ih _ _ hc

theorem natDigitsAux_ne_nil (fuel n : Nat) : natDigitsAux (fuel + 1) n ≠ [] := by
  rw [natDigitsAux]
  by_cases h : n < 10 <;> simp [h]

theorem parseDigitsGo_append (acc : Nat) (xs ys : List Char)
    (h : ∀ c ∈ xs, c.isDigit = true) :
    parseDigitsGo acc (xs ++ ys) = parseDigitsGo (parseDigitsGo acc xs) ys := by
  induction xs generalizing acc with
  | nil => simp [parseDigitsGo]
  | cons c cs ih =>
    have hc : c.isDigit = true := h c (by simp)
    simp only [List.cons_append, parseDigitsGo, hc, if_pos]
    exact ih _ fun d hd => h d (by simp [hd])

theorem parseDigitsGo_print :
    ∀ fuel n acc, n < fuel →
      parseDigitsGo acc (natDigitsAux fuel n).reverse
        = acc * 10 ^ (natDigitsAux fuel n).length + n := by
  intro fuel
  induction fuel with
  | zero => intro n acc h; omega
  | succ f ih =>
    intro n acc h
    rw [natDigitsAux]
    by_cases h10 : n < 10
    · simp only [h10, if_pos, List.reverse_cons, List.reverse_nil, List.nil_append,
        List.length_singleton]
      simp [parseDigitsGo, digitChar_isDigit n h10, digitChar_toNat n h10]
    · simp only [h10, if_neg, not_false_iff, List.reverse_cons, List.length_cons]
      have hdiv : n / 10 < f := by
        have h1 : n / 10 < n := Nat.div_lt_self (by omega) (by norm_num)
        omega
      have hmod : n % 10 < 10 := Nat.mod_lt _ (by norm_num)
      rw [parseDigitsGo_append _ _ _ (fun c hc => natDigitsAux_all_digits f (n / 10) c
        (List.mem_reverse.mp hc))]
      rw [ih (n / 10) acc hdiv]
      simp [parseDigitsGo, digitChar_isDigit _ hmod, digitChar_toNat _ hmod]
      rw [pow_succ, ← mul_assoc]
      generalize acc * 10 ^ (natDigitsAux f (n / 10)).length = A
      omega

theorem isDigit_not_ws (c : Char) (h : c.isDigit = true) : isJsWs c = false := by
  simp only [isJsWs, Bool.or_eq_false_iff, decide_eq_false_iff_not]
  refine ⟨⟨⟨?_, ?_⟩, ?_⟩, ?_⟩ <;> rintro rfl <;> simp_all

theorem isDigit_ne_minus (c : Char) (h : c.isDigit = true) : c ≠ '-' := by
  rintro rfl; simp at h

theorem isDigit_ne_plus (c : Char) (h : c.isDigit = true) : c ≠ '+' := by
  rintro rfl; simp at h

theorem parseDigits_print (n : Nat) :
    parseDigits (natToRevDigits n).reverse = some n := by
  have hne : natToRevDigits n ≠ [] := natDigitsAux_ne_nil n n
  have hdig : ∀ c ∈ (natToRevDigits n).reverse, c.isDigit = true := fun c hc =>
    natDigitsAux_all_digits (n + 1) n c (List.mem_reverse.mp hc)
  have hprint : parseDigitsGo 0 (natToRevDigits n).reverse
      = 0 * 10 ^ (natToRevDigits n).length + n := by
    have := parseDigitsGo_print (n + 1) n 0 (Nat.lt_succ_self n)
    simpa [natToRevDigits] using this
  rcases hrev : (natToRevDigits n).reverse with _ | ⟨c, t⟩
  · exact absurd (by simpa using congrArg List.reverse hrev) hne
  · have hc : c.isDigit = true := hdig c (by simp [hrev])
    rw [parseDigits, if_pos hc]
    rw [hrev] at hprint
    simp only [Nat.zero_mul, Nat.zero_add] at hprint
    rw [hprint]

theorem dropWhile_ws_digits (l : List Char) (h : ∀ c ∈ l, c.isDigit = true) :
    l.dropWhile isJsWs = l := by
  cases l with
  | nil => rfl
  | cons c cs =>
    rw [List.dropWhile_cons, if_neg]
    simp [isDigit_not_ws c (h c (by simp))]

theorem jsParseInt_numToString (j : Option Int) :
    jsParseInt (numToString j) = j := by
  cases j with
  | none => rfl
  | some i =>
    have hdig : ∀ c ∈ (natToRevDigits i.natAbs).reverse, c.isDigit = true := fun c hc =>
      natDigitsAux_all_digits _ _ c (List.mem_reverse.mp hc)
    have hdata : (natToString i.natAbs).data = (natToRevDigits i.natAbs).reverse := rfl
    by_cases hneg : i < 0
    · have hstep : jsParseInt (numToString (some i))
          = jsParseIntChars ('-' :: (natToRevDigits i.natAbs).reverse) := by
        rw [jsParseInt, numToString]
        rw [if_pos hneg]
        rw [String.data_append]
        show jsParseIntChars (List.dropWhile isJsWs ('-' :: (natToString i.natAbs).data)) = _
        rw [List.dropWhile_cons, if_neg (by decide)]
        rw [hdata]
      rw [hstep, jsParseIntChars, if_pos rfl, ← hdata]
      rw [show (natToString i.natAbs).data = (natToRevDigits i.natAbs).reverse from rfl]
      rw [parseDigits_print i.natAbs]
      rw [Option.map_some']
      congr 1
      show -((i.natAbs : Nat) : Int) = i
      omega
    · push_neg at hneg
      have hstep : jsParseInt (numToString (some i))
          = jsParseIntChars ((natToRevDigits i.natAbs).reverse) := by
        rw [jsParseInt, numToString]
        rw [if_neg (not_lt.mpr hneg)]
        rw [hdata, dropWhile_ws_digits _ hdig]
      rw [hstep]
      rcases hrev : (natToRevDigits i.natAbs).reverse with _ | ⟨c, t⟩
      · exact absurd (by simpa using congrArg List.reverse hrev)
          (natDigitsAux_ne_nil i.natAbs i.natAbs)
      · have hc : c.isDigit = true := hdig c (by simp [hrev])
        rw [jsParseIntChars]
        rw [if_neg (isDigit_ne_minus c hc), if_neg (isDigit_ne_plus c hc)]
        rw [← hrev, parseDigits_print i.natAbs]
        simp [Int.natAbs_of_nonneg hneg]

theorem numToString_ne_empty (j : Option Int) : numToString j ≠ "" := by
  cases j with
  | none => decide
  | some i =>
    have hne : natToRevDigits i.natAbs ≠ [] := natDigitsAux_ne_nil _ _
    by_cases hneg : i < 0
    · simp only [numToString, if_pos hneg]
      intro h
      have h2 := congrArg String.data h
      rw [String.data_append] at h2
      exact List.cons_ne_nil '-' _ h2
    · simp only [numToString, if_neg (not_lt.mpr (not_lt.mp hneg))]
      intro h
      have hrev : (natToRevDigits i.natAbs).reverse = [] := congrArg String.data h
      exact hne (by simpa using congrArg List.reverse hrev)

/-! ## Lemmas: the nine-column export/import cycle -/

theorem strCol_trimOrBlank (s dflt : String) (h : trimOrBlank s) :
    (if jsTrim s = "" then dflt else jsTrim s) = (if jsTrim s = "" then dflt else s) := by
  rcases h with h | h
  · rw [h]
  · simp [h]

theorem importRow_exportRow (r : ConsolidatedRow) (h : rowExportable r) :
    importRow (exportRow r) = some (fixRow r) := by
  obtain ⟨h1, h2, h3, h4, h5, h6, h7, h8, h9⟩ := h
  have hfn : jsTrim r.field_name ≠ "" := by rw [h3]; exact h4
  have e0 : cellString (exportRow r) 0 = some r.sectionName := rfl
  have e1 : cellString (exportRow r) 1 = some r.subsection := rfl
  have e2 : cellString (exportRow r) 2 = some r.field_name := rfl
  have e3 : cellString (exportRow r) 3 = some (numToString r.order) := rfl
  have e4 : cellString (exportRow r) 4 = some r.screen_name := rfl
  have e5 : cellString (exportRow r) 5 = some r.DB_mapping := rfl
  have e6 : cellString (exportRow r) 6 = some r.is_computed := rfl
  have e7 : cellString (exportRow r) 7 = some r.formula := rfl
  have e8 : cellString (exportRow r) 8 = some r.plan_type := rfl
  simp only [importRow, strCol, e0, e1, e2, e3, e4, e5, e6, e7, e8, Option.getD_some]
  rw [if_neg (numToString_ne_empty r.order), jsParseInt_numToString]
  rw [strCol_trimOrBlank _ _ h1, strCol_trimOrBlank _ _ h2,
    strCol_trimOrBlank _ _ h5, strCol_trimOrBlank _ _ h6,
    strCol_trimOrBlank _ _ h7, strCol_trimOrBlank _ _ h8,
    strCol_trimOrBlank _ _ h9]
  rw [if_neg hfn, h3, if_neg h4]
  rfl

/-- The round trip on a list of exportable rows. -/
theorem roundTrip_rows (rows : List ConsolidatedRow) (h : ∀ r ∈ rows, rowExportable r) :
    parseConsolidatedExcel (generateConsolidatedExcel rows) = rows.map fixRow := by
  rw [generateConsolidatedExcel, parseConsolidatedExcel]
  induction rows with
  | nil => rfl
  | cons r rs ih =>
    rw [List.map_cons, List.filterMap_cons]
    rw [importRow_exportRow r (h r (by simp))]
    rw [ih fun x hx => h x (by simp [hx])]
    rfl

/-! ## Lemmas: consolidation diagnostics -/

theorem rowDiagnostics_severity (n : Nat) (row : ConsolidatedRow) :
    ∀ e ∈ rowDiagnostics n row, e.severity = "error" := by
  intro e he
  rw [rowDiagnostics] at he
  rcases List.mem_append.mp he with h | h <;>
    [skip; skip] <;> split at h <;> simp_all

theorem rowDiagnostics_row (n : Nat) (row : ConsolidatedRow) :
    ∀ e ∈ rowDiagnostics n row, e.row = n := by
  intro e he
  rw [rowDiagnostics] at he
  rcases List.mem_append.mp he with h | h <;>
    [skip; skip] <;> split at h <;> simp_all

theorem mkErrors_severity :
    ∀ rows n, ∀ e ∈ mkErrors rows n, e.severity = "error" := by
  intro rows
  induction rows with
  | nil => intro n e he; simp [mkErrors] at he
  | cons r rs ih =>
    intro n e he
    rw [mkErrors] at he
    rcases List.mem_append.mp he with h | h
    · exact rowDiagnostics_severity n r e h
    · exact ih (n + 1) e h

theorem mkErrors_row_ge :
    ∀ rows n, ∀ e ∈ mkErrors rows n, n ≤ e.row := by
  intro rows
  induction rows with
  | nil => intro n e he; simp [mkErrors] at he
  | cons r rs ih =>
    intro n e he
    rw [mkErrors] at he
    rcases List.mem_append.mp he with h | h
    · rw [rowDiagnostics_row n r e h]
    · exact Nat.le_of_succ_le (ih (n + 1) e h)

theorem countP_eq_zero_of_lt (rows : List ConsolidatedRow) (n m : Nat) (hm : m < n)
    (msg : String) :
    (mkErrors rows n).countP (fun e => e.row == m && e.message == msg) = 0 := by
  rw [List.countP_eq_zero]
  intro e he
  have := mkErrors_row_ge rows n e he
  simp only [Bool.and_eq_true, beq_iff_eq, not_and]
  intro hrow
  omega

theorem rowDiagnostics_countP_db (n : Nat) (row : ConsolidatedRow) :
    (rowDiagnostics n row).countP (fun e => e.row == n && e.message == "Missing DB mapping")
      = if row.DB_mapping = "" then 1 else 0 := by
  rw [rowDiagnostics]
  by_cases hdb : row.DB_mapping = "" <;>
    by_cases hcf : row.is_computed = "YES" ∧ row.formula = "" <;>
      simp [hdb, hcf, List.countP_cons, List.countP_nil]

theorem rowDiagnostics_countP_formula (n : Nat) (row : ConsolidatedRow) :
    (rowDiagnostics n row).countP
        (fun e => e.row == n && e.message == "Computed field is missing formula")
      = if row.is_computed = "YES" ∧ row.formula = "" then 1 else 0 := by
  rw [rowDiagnostics]
  by_cases hdb : row.DB_mapping = "" <;>
    by_cases hcf : row.is_computed = "YES" ∧ row.formula = "" <;>
      simp [hdb, hcf, List.countP_cons, List.countP_nil]

theorem rowDiagnostics_countP_ne (n m : Nat) (hnm : m ≠ n) (row : ConsolidatedRow)
    (msg : String) :
    (rowDiagnostics n row).countP (fun e => e.row == m && e.message == msg) = 0 := by
  rw [List.countP_eq_zero]
  intro e he
  have := rowDiagnostics_row n row e he
  simp only [Bool.and_eq_true, beq_iff_eq, not_and]
  intro hrow
  omega

theorem mkErrors_countP (msg : String)
    (f : ConsolidatedRow → Prop) [DecidablePred f]
    (hf : ∀ n row, (rowDiagnostics n row).countP (fun e => e.row == n && e.message == msg)
      = if f row then 1 else 0) :
    ∀ rows n i (h : i < rows.length),
      (mkErrors rows n).countP (fun e => e.row == n + i && e.message == msg)
        = if f rows[i] then 1 else 0 := by
  intro rows
  induction rows with
  | nil => intro n i h; simp at h
  | cons r rs ih =>
    intro n i h
    rw [mkErrors, List.countP_append]
    cases i with
    | zero =>
      rw [Nat.add_zero]
      rw [hf n r]
      rw [countP_eq_zero_of_lt rs (n + 1) n (Nat.lt_succ_self n) msg]
      simp
    | succ j =>
      have hj : j < rs.length := by simpa using h
      rw [rowDiagnostics_countP_ne n (n + (j + 1)) (by omega) r msg]
      have := ih (n + 1) j hj
      rw [show n + 1 + j = n + (j + 1) by omega] at this
      rw [this]
      simp [List.getElem_cons_succ]

/-! ## Lemmas: grouping by the joined key -/

theorem mem_firstKeysFrom (rows : List ConsolidatedRow) :
    ∀ ks k, k ∈ firstKeysFrom ks rows ↔ k ∈ ks ∨ ∃ r ∈ rows, rowKey r = k := by
  induction rows with
  | nil => intro ks k; simp [firstKeysFrom]
  | cons r rs ih =>
    intro ks k
    rw [firstKeysFrom, ih]
    by_cases hmem : rowKey r ∈ ks
    · rw [if_pos hmem]
      constructor
      · rintro (h | ⟨r', hr', hk⟩)
        · exact Or.inl h
        · exact Or.inr ⟨r', List.mem_cons_of_mem _ hr', hk⟩
      · rintro (h | ⟨r', hr', hk⟩)
        · exact Or.inl h
        · rcases List.mem_cons.mp hr' with rfl | hr2
          · exact Or.inl (hk ▸ hmem)
          · exact Or.inr ⟨r', hr2, hk⟩
    · rw [if_neg hmem]
      constructor
      · rintro (h | ⟨r', hr', hk⟩)
        · rcases List.mem_append.mp h with h2 | h2
          · exact Or.inl h2
          · exact Or.inr ⟨r, List.mem_cons_self _ _, (List.mem_singleton.mp h2).symm⟩
        · exact Or.inr ⟨r', List.mem_cons_of_mem _ hr', hk⟩
      · rintro (h | ⟨r', hr', hk⟩)
        · exact Or.inl (List.mem_append.mpr (Or.inl h))
        · rcases List.mem_cons.mp hr' with rfl | hr2
          · exact Or.inl (List.mem_append.mpr (Or.inr (by simp [hk])))
          · exact Or.inr ⟨r', hr2, hk⟩

theorem mem_firstKeys (rows : List ConsolidatedRow) (k : String) :
    k ∈ firstKeys rows ↔ ∃ r ∈ rows, rowKey r = k := by
  rw [firstKeys, mem_firstKeysFrom]
  simp

theorem nodup_firstKeysFrom (rows : List ConsolidatedRow) :
    ∀ ks : List String, ks.Nodup → (firstKeysFrom ks rows).Nodup := by
  induction rows with
  | nil => intro ks h; exact h
  | cons r rs ih =>
    intro ks h
    rw [firstKeysFrom]
    by_cases hmem : rowKey r ∈ ks
    · rw [if_pos hmem]; exact ih ks h
    · rw [if_neg hmem]
      refine ih _ ?_
      rw [List.nodup_append]
      exact ⟨h, List.nodup_singleton _, by simpa [List.disjoint_singleton] using hmem⟩

theorem nodup_firstKeys (rows : List ConsolidatedRow) : (firstKeys rows).Nodup :=
  nodup_firstKeysFrom rows [] List.nodup_nil

theorem firstKeysFrom_append (p q : List ConsolidatedRow) :
    ∀ ks, firstKeysFrom ks (p ++ q) = firstKeysFrom (firstKeysFrom ks p) q := by
  induction p with
  | nil => intro ks; rfl
  | cons r rs ih => intro ks; rw [List.cons_append, firstKeysFrom, firstKeysFrom, ih]

theorem firstKeys_snoc (p : List ConsolidatedRow) (r : ConsolidatedRow) :
    firstKeys (p ++ [r]) =
      if rowKey r ∈ firstKeys p then firstKeys p else firstKeys p ++ [rowKey r] := by
  rw [firstKeys, firstKeysFrom_append]
  rfl

theorem mergedRecord_snoc_ne (p : List ConsolidatedRow) (r : ConsolidatedRow) (k : String)
    (hne : rowKey r ≠ k) : mergedRecord (p ++ [r]) k = mergedRecord p k := by
  rw [mergedRecord, mergedRecord]
  rw [List.find?_append, List.filter_append]
  have hpred : (rowKey r == k) = false := by simpa using hne
  have hfind : List.find? (fun r' => rowKey r' == k) [r] = none := by
    simp [List.find?, hpred]
  have hfilter : List.filter (fun r' => rowKey r' == k) [r] = [] := by
    simp [List.filter, hpred]
  rw [hfind, hfilter, List.append_nil]
  cases List.find? (fun r' => rowKey r' == k) p <;> rfl

theorem mergedRecord_snoc_found (p : List ConsolidatedRow) (r : ConsolidatedRow)
    (hfound : ∃ r' ∈ p, rowKey r' = rowKey r) :
    mergedRecord (p ++ [r]) (rowKey r) = pushCtx (mergedRecord p (rowKey r)) r := by
  have hne : List.find? (fun x => rowKey x == rowKey r) p ≠ none := by
    rcases hfound with ⟨r', hr', hk⟩
    intro hnone
    rw [List.find?_eq_none] at hnone
    exact hnone r' hr' (by simp [hk])
  rcases hfind : List.find? (fun x => rowKey x == rowKey r) p with _ | r0
  · exact absurd hfind hne
  · have hfind2 : List.find? (fun x => rowKey x == rowKey r) (p ++ [r]) = some r0 := by
      rw [List.find?_append, hfind]
      rfl
    have hfr : List.filter (fun x => rowKey x == rowKey r) [r] = [r] := by simp
    rw [mergedRecord, mergedRecord, hfind, hfind2]
    rw [List.filter_append, hfr, List.map_append]
    rfl

theorem mergedRecord_snoc_new (p : List ConsolidatedRow) (r : ConsolidatedRow)
    (hnone : ∀ r' ∈ p, rowKey r' ≠ rowKey r) :
    mergedRecord (p ++ [r]) (rowKey r) = generateConfigFromRow r := by
  have hfind : List.find? (fun x => rowKey x == rowKey r) p = none := by
    rw [List.find?_eq_none]
    intro x hx
    simp [hnone x hx]
  have hfind2 : List.find? (fun x => rowKey x == rowKey r) (p ++ [r]) = some r := by
    rw [List.find?_append, hfind]
    simp [List.find?]
  have hfilter : List.filter (fun x => rowKey x == rowKey r) p = [] := by
    rw [List.filter_eq_nil_iff]
    intro x hx
    simp [hnone x hx]
  have hfr : List.filter (fun x => rowKey x == rowKey r) [r] = [r] := by simp
  rw [mergedRecord, hfind2, List.filter_append, hfilter, hfr]
  rfl

/-- The association-list state of `generateAllConfigs` after processing `p`. -/
def gacState (p : List ConsolidatedRow) : List (String × ConfigJSON) :=
  (firstKeys p).map fun k => (k, mergedRecord p k)

theorem gacState_any (p : List ConsolidatedRow) (k : String) :
    (gacState p).any (fun e => e.1 == k) = true ↔ k ∈ firstKeys p := by
  simp [gacState, List.any_eq_true]

theorem gacStep_state (p : List ConsolidatedRow) (r : ConsolidatedRow) :
    gacStep (gacState p) r = gacState (p ++ [r]) := by
  by_cases hmem : rowKey r ∈ firstKeys p
  · have hany : (gacState p).any (fun e => e.1 == rowKey r) = true :=
      (gacState_any p _).mpr hmem
    simp only [gacStep]
    rw [if_pos hany]
    rw [gacState, gacState, firstKeys_snoc, if_pos hmem]
    rw [List.map_map]
    apply List.map_congr_left
    intro k hk
    simp only [Function.comp]
    by_cases hkr : k = rowKey r
    · subst hkr
      rw [if_pos (by simp)]
      have hfound : ∃ r' ∈ p, rowKey r' = rowKey r := (mem_firstKeys p _).mp hmem
      rw [mergedRecord_snoc_found p r hfound]
    · rw [if_neg (by simp [hkr])]
      rw [mergedRecord_snoc_ne p r k (fun h => hkr h.symm)]
  · have hany : ¬((gacState p).any (fun e => e.1 == rowKey r) = true) :=
      fun h => hmem ((gacState_any p _).mp h)
    simp only [gacStep]
    rw [if_neg hany]
    rw [gacState, gacState, firstKeys_snoc, if_neg hmem]
    rw [List.map_append]
    congr 1
    · apply List.map_congr_left
      intro k hk
      have hkr : k ≠ rowKey r := fun h => hmem (h ▸ hk)
      rw [mergedRecord_snoc_ne p r k (fun h => hkr h.symm)]
    · have hnone : ∀ r' ∈ p, rowKey r' ≠ rowKey r := fun r' hr' h =>
        hmem ((mem_firstKeys p _).mpr ⟨r', hr', h⟩)
      rw [List.map_singleton, mergedRecord_snoc_new p r hnone]

theorem foldl_gacStep (rows : List ConsolidatedRow) :
    ∀ p, rows.foldl gacStep (gacState p) = gacState (p ++ rows) := by
  induction rows with
  | nil => intro p; rw [List.foldl_nil, List.append_nil]
  | cons r rs ih =>
    intro p
    rw [List.foldl_cons, gacStep_state, ih (p ++ [r]), List.append_assoc]
    rfl

/-- The full characterization of `generateAllConfigs`: one record per
distinct joined key, in first-seen order, each merging the screen contexts
of all rows with that key in row order. -/
theorem generateAllConfigs_eq (rows : List ConsolidatedRow) :
    generateAllConfigs rows = (firstKeys rows).map (mergedRecord rows) := by
  rw [generateAllConfigs]
  rw [show ([] : List (String × ConfigJSON)) = gacState [] from rfl]
  rw [foldl_gacStep rows []]
  rw [show ([] : List ConsolidatedRow) ++ rows = rows from rfl]
  rw [gacState, List.map_map]
  rfl

/-! ## Lemmas: the stable position sort -/

theorem perm_insertCmp (cmp : α → α → Int) (x : α) (s : List α) :
    (insertCmp cmp x s).Perm (x :: s) := by
  induction s with
  | nil => exact List.Perm.refl _
  | cons y ys ih =>
    rw [insertCmp]
    by_cases h : cmp x y ≤ 0
    · rw [if_pos h]
    · rw [if_neg h]
      exact (ih.cons y).trans (List.Perm.swap x y ys)

theorem perm_insertionSortJS (cmp : α → α → Int) (l : List α) :
    (insertionSortJS cmp l).Perm l := by
  induction l with
  | nil => exact List.Perm.refl _
  | cons x xs ih =>
    rw [insertionSortJS]
    exact (perm_insertCmp cmp x _).trans (ih.cons x)

theorem mem_insertionSortJS (cmp : α → α → Int) (l : List α) (a : α) :
    a ∈ insertionSortJS cmp l ↔ a ∈ l :=
  (perm_insertionSortJS cmp l).mem_iff

theorem mem_insertCmp (cmp : α → α → Int) (x : α) (s : List α) (a : α) :
    a ∈ insertCmp cmp x s ↔ a = x ∨ a ∈ s := by
  rw [(perm_insertCmp cmp x s).mem_iff, List.mem_cons]

theorem sublist_insertCmp (cmp : α → α → Int) (x : α) (s : List α) :
    s.Sublist (insertCmp cmp x s) := by
  induction s with
  | nil => exact List.nil_sublist _
  | cons y ys ih =>
    rw [insertCmp]
    by_cases h : cmp x y ≤ 0
    · rw [if_pos h]
      exact List.sublist_cons_self x (y :: ys)
    · rw [if_neg h]
      exact List.Sublist.cons₂ y ih

theorem insertCmp_before (cmp : α → α → Int) (x q : α) (s : List α)
    (hle : cmp x q ≤ 0) (hq : q ∈ s) :
    [x, q].Sublist (insertCmp cmp x s) := by
  induction s with
  | nil => cases hq
  | cons y ys ih =>
    rw [insertCmp]
    by_cases h : cmp x y ≤ 0
    · rw [if_pos h]
      exact List.Sublist.cons₂ x (List.singleton_sublist.mpr hq)
    · rw [if_neg h]
      rcases List.mem_cons.mp hq with rfl | hq2
      · exact absurd hle h
      · exact List.Sublist.cons y (ih hq2)

theorem stable_insertionSortJS (cmp : α → α → Int) (p q : α) (h0 : cmp p q ≤ 0) :
    ∀ l : List α, [p, q].Sublist l → [p, q].Sublist (insertionSortJS cmp l) := by
  intro l
  induction l with
  | nil => intro h; simp at h
  | cons x xs ih =>
    intro h
    rw [insertionSortJS]
    cases h with
    | cons _ h2 =>
      exact (ih h2).trans (sublist_insertCmp cmp x _)
    | cons₂ _ h2 =>
      have hq : q ∈ insertionSortJS cmp xs :=
        (mem_insertionSortJS cmp xs q).mpr (List.singleton_sublist.mp h2)
      exact insertCmp_before cmp p q _ h0 hq

theorem pairwise_insertCmp (key : α → Int) (cmp : α → α → Int) (x : α) (s : List α)
    (hcmp : ∀ b ∈ s, cmp x b = key x - key b)
    (hp : s.Pairwise fun a b => key a ≤ key b) :
    (insertCmp cmp x s).Pairwise fun a b => key a ≤ key b := by
  induction s with
  | nil => simp [insertCmp]
  | cons y ys ih =>
    rw [insertCmp]
    rw [List.pairwise_cons] at hp
    obtain ⟨hy, hys⟩ := hp
    by_cases h : cmp x y ≤ 0
    · rw [if_pos h]
      have hxy : key x ≤ key y := by
        have := hcmp y (by simp)
        omega
      rw [List.pairwise_cons]
      refine ⟨?_, List.pairwise_cons.mpr ⟨hy, hys⟩⟩
      intro b hb
      rcases List.mem_cons.mp hb with rfl | hb2
      · exact hxy
      · exact le_trans hxy (hy b hb2)
    · rw [if_neg h]
      have hyx : key y ≤ key x := by
        have := hcmp y (by simp)
        omega
      rw [List.pairwise_cons]
      constructor
      · intro b hb
        rcases (mem_insertCmp cmp x ys b).mp hb with rfl | hb2
        · exact hyx
        · exact hy b hb2
      · exact ih (fun b hb => hcmp b (by simp [hb])) hys

theorem pairwise_insertionSortJS (key : α → Int) (cmp : α → α → Int) (l : List α)
    (hcmp : ∀ a ∈ l, ∀ b ∈ l, cmp a b = key a - key b) :
    (insertionSortJS cmp l).Pairwise fun a b => key a ≤ key b := by
  induction l with
  | nil => simp [insertionSortJS]
  | cons x xs ih =>
    rw [insertionSortJS]
    apply pairwise_insertCmp
    · intro b hb
      have hbmem : b ∈ xs := (mem_insertionSortJS cmp xs b).mp hb
      exact hcmp x (by simp) b (by simp [hbmem])
    · exact ih fun a ha b hb => hcmp a (by simp [ha]) b (by simp [hb])

theorem cmpNodes_eq_x (a b : FigmaNode) (ha : a.absoluteBoundingBox ≠ none)
    (hb : b.absoluteBoundingBox ≠ none) (hrow : (nodeY a - nodeY b).natAbs ≤ 20) :
    cmpNodes a b = nodeX a - nodeX b := by
  rcases haB : a.absoluteBoundingBox with _ | ab
  · exact absurd haB ha
  rcases hbB : b.absoluteBoundingBox with _ | bb
  · exact absurd hbB hb
  have hya : nodeY a = ab.y := by rw [nodeY, haB]; rfl
  have hyb : nodeY b = bb.y := by rw [nodeY, hbB]; rfl
  have hxa : nodeX a = ab.x := by rw [nodeX, haB]; rfl
  have hxb : nodeX b = bb.x := by rw [nodeX, hbB]; rfl
  rw [hya, hyb] at hrow
  rw [cmpNodes, haB, hbB]
  simp only [hxa, hxb]
  rw [if_neg (by omega)]

/-! ## Lemmas: emitted fields carry the active section -/

theorem getD_ne_empty_of_truthy (o : Option String) (h : strTruthy o = true) :
    o.getD "" ≠ "" := by
  cases o with
  | none => simp [strTruthy] at h
  | some s => simpa [strTruthy] using h

theorem emitBatch_section (ctx : ExtractionContext) (hs : sectionTruthy ctx = true) :
    ∀ gs idx, ∀ f ∈ emitBatch ctx gs idx, f.sectionName ≠ "" := by
  intro gs
  induction gs with
  | nil => intro idx f hf; simp [emitBatch] at hf
  | cons g gs ih =>
    intro idx f hf
    rw [emitBatch] at hf
    rcases List.mem_append.mp hf with h | h
    · rcases hlab : extractFieldLabel g with _ | fn
      · rw [hlab] at h
        simp at h
      · rw [hlab] at h
        by_cases hfn : fn = ""
        · simp [hfn] at h
        · simp [hfn] at h
          subst h
          exact getD_ne_empty_of_truthy _ hs
    · exact ih (idx + 1) f h

theorem extract_section_ne_pair :
    (∀ (node : FigmaNode) (ctx : ExtractionContext),
      ∀ f ∈ extractFieldsFromNode node ctx, f.sectionName ≠ "")
    ∧ ∀ (l : List FigmaNode) (ctx : ExtractionContext),
      ∀ f ∈ extractFieldsList l ctx, f.sectionName ≠ "" := by
  refine extractFieldsFromNode.mutual_induct
    (fun node ctx => ∀ f ∈ extractFieldsFromNode node ctx, f.sectionName ≠ "")
    (fun l ctx => ∀ f ∈ extractFieldsList l ctx, f.sectionName ≠ "")
    ?_ ?_ ?_ ?_ ?_
  · intro id name type chars box cs ctx ctx3 hlen ih f hf
    rw [extractFieldsFromNode] at hf
    rw [if_pos hlen] at hf
    rcases List.mem_append.mp hf with h | h
    · revert h
      by_cases hbatch : (findFieldGroups cs).length > 0 ∧ sectionTruthy
          (refineContext (FigmaNode.mk id name type chars box (some cs)) ctx) = true
      · rw [if_pos (by simp [hbatch.1, hbatch.2])]
        intro h
        exact emitBatch_section _ hbatch.2 _ _ f h
      · rw [if_neg (by simpa using fun h1 h2 => hbatch ⟨h1, h2⟩)]
        intro h
        simp at h
    · exact ih f h
  · intro id name type chars box cs ctx hlen f hf
    rw [extractFieldsFromNode] at hf
    rw [if_neg hlen] at hf
    simp at hf
  · intro id name type chars box ctx f hf
    rw [extractFieldsFromNode] at hf
    simp at hf
  · intro ctx f hf
    rw [extractFieldsList] at hf
    simp at hf
  · intro n ns ctx ih1 ih2 f hf
    rw [extractFieldsList] at hf
    rcases List.mem_append.mp hf with h | h
    · exact ih1 f h
    · exact ih2 f h

/-! ## Claim theorems -/

/-- Claim C1 (confirmed): on any tree whose primary walk yields zero fields
the pipeline raises no exception (it is a total function) and returns the
fallback pass's result on the same tree; when the fallback also finds
nothing, the result is the empty field list. -/
theorem c1_empty_primary_fallback (node : FigmaNode)
    (h : extractFieldsFromNode node ⟨none, none, none⟩ = []) :
    pipelineExtract node = aggressiveFieldExtraction node
    ∧ (aggressiveFieldExtraction node = [] → pipelineExtract node = []) := by
  constructor
  · rw [pipelineExtract, h]
    simp only [List.length_nil, if_pos rfl]
    by_cases hagg : (aggressiveFieldExtraction node).length > 0
    · simp [hagg]
    · rw [if_neg hagg]
      exact (List.length_eq_zero.mp (by omega)).symm
  · intro ha
    rw [pipelineExtract, h, ha]
    rfl

/-- Witness for C1 at a concrete leaf where both passes find nothing. -/
theorem c1_empty_primary_fallback_witness :
    extractFieldsFromNode c1LeafNode ⟨none, none, none⟩ = []
    ∧ aggressiveFieldExtraction c1LeafNode = []
    ∧ pipelineExtract c1LeafNode = [] :=
  ⟨rfl, rfl, (c1_empty_primary_fallback c1LeafNode rfl).2 rfl⟩

/-- Claim C2 counterexample: for the row with field name "Annual Deductible"
and DB column "Coverage.DeductibleBalance", the inferred type is `text`, not
the currency type, and the output transform is a plain-value mapping with no
array item and no tag ("deductible" matches none of the currency name
fragments currency/amount/premium). -/
theorem c2_annual_deductible_counterexample :
    inferFieldType c2Row.field_name = "text"
    ∧ inferFieldType c2Row.field_name ≠ "currency-input"
    ∧ (generateConfigFromRow c2Row).field.output_transform.transformation_type
        = "plain_value"
    ∧ (generateConfigFromRow c2Row).field.output_transform.array_item_type
        ≠ some "DEDUCTIBLE"
    ∧ (generateConfigFromRow c2Row).field.output_transform.create_array_item = none :=
  ⟨rfl, by decide, rfl, by decide, rfl⟩

/-- Claim C2 (corrected): for the consolidated row with field name
"Annual Deductible" and DB column "Coverage.DeductibleBalance", config
synthesis infers the free-text type and produces a plain-value output
transform with no array item and no tag. -/
theorem c2_annual_deductible_amended :
    (generateConfigFromRow c2Row).field.type = "text"
    ∧ (generateConfigFromRow c2Row).field.output_transform =
      { enabled := true, output_field_path := "Coverage.DeductibleBalance",
        transformation_type := "plain_value", array_item_property := none,
        array_item_type := none, create_array_item := none } :=
  ⟨rfl, rfl⟩

/-- Claim C3 (code bug): the tree `section-frame → wrapper → field-group`
contains exactly one detected field group, yet the primary walk emits two
identical `ExtractedField`s for it — once from the section frame's batch
(which searches descendants recursively) and once more from the wrapper's
own batch. -/
theorem c3_duplicate_emission :
    findFieldGroups [c3WrapNode] = [c3GroupNode]
    ∧ extractFieldsFromNode c3RootNode ⟨none, none, none⟩ =
      [{ sectionName := "demographics", subsection := "", fieldName := "First Name",
         order := 1, screenName := "create" },
       { sectionName := "demographics", subsection := "", fieldName := "First Name",
         order := 1, screenName := "create" }] :=
  ⟨rfl, rfl⟩

/-- Claim C4 counterexample: a row whose screen name is sourced from an
empty column does not come back as the empty string — it comes back as the
default `create`, so the re-imported list differs from the original. -/
theorem c4_roundtrip_counterexample :
    c4Row.screen_name = ""
    ∧ parseConsolidatedExcel (generateConsolidatedExcel [c4Row]) =
      [{ c4Row with screen_name := "create" }]
    ∧ parseConsolidatedExcel (generateConsolidatedExcel [c4Row]) ≠ [c4Row] :=
  ⟨rfl, rfl, by decide⟩

/-- Claim C4 (corrected): for rows whose string fields carry no surrounding
whitespace (or are pure whitespace) and whose field name is nonempty and
trimmed, export followed by re-import reproduces the list field by field,
except that a field sourced from an empty-or-whitespace column comes back as
`""` for section, subsection, DB mapping and formula, and as the defaults
`create` / `NO` / `MEDICAL` for screen name, is-computed and plan type. -/
theorem c4_roundtrip_amended (rows : List ConsolidatedRow)
    (h : ∀ r ∈ rows, rowExportable r) :
    parseConsolidatedExcel (generateConsolidatedExcel rows) = rows.map fixRow :=
  roundTrip_rows rows h

/-- Witness for C4 on a concrete single-row list. -/
theorem c4_roundtrip_amended_witness :
    parseConsolidatedExcel (generateConsolidatedExcel [c4GoodRow]) = [fixRow c4GoodRow] := by
  have h : ∀ r ∈ [c4GoodRow], rowExportable r := by
    intro r hr
    rw [List.mem_singleton] at hr
    subst hr
    exact ⟨Or.inl rfl, Or.inl rfl, rfl, by decide, Or.inl rfl, Or.inl rfl, Or.inl rfl,
      Or.inl rfl, Or.inl rfl⟩
  exact c4_roundtrip_amended [c4GoodRow] h

/-- Claim C5 (confirmed): consolidation is a total function building one row
per extracted field in input order; a row whose DB mapping is absent (empty)
gets exactly one diagnostic with message "Missing DB mapping" at its 1-based
position and a row with a mapping gets none; a computed row without a
formula gets exactly one further "Computed field is missing formula"
diagnostic; and every diagnostic ever produced has error severity (no
warnings). -/
theorem c5_consolidation_diagnostics (fields : List FigmaField)
    (dbMappings : List DBMapping) (computedFields : List ComputedField)
    (planType : String) :
    (consolidate fields dbMappings computedFields planType).1
      = fields.map (buildConsolidatedRow dbMappings computedFields planType)
    ∧ (∀ e ∈ (consolidate fields dbMappings computedFields planType).2,
        e.severity = "error")
    ∧ ∀ i (h : i < (consolidate fields dbMappings computedFields planType).1.length),
        ((consolidate fields dbMappings computedFields planType).2.countP
            (fun e => e.row == 1 + i && e.message == "Missing DB mapping")
          = if (consolidate fields dbMappings computedFields planType).1[i].DB_mapping = ""
            then 1 else 0)
        ∧ ((consolidate fields dbMappings computedFields planType).2.countP
            (fun e => e.row == 1 + i && e.message == "Computed field is missing formula")
          = if (consolidate fields dbMappings computedFields planType).1[i].is_computed = "YES"
              ∧ (consolidate fields dbMappings computedFields planType).1[i].formula = ""
            then 1 else 0) := by
  refine ⟨rfl, mkErrors_severity _ 1, ?_⟩
  intro i h
  constructor
  · exact mkErrors_countP "Missing DB mapping" (fun row => row.DB_mapping = "")
      rowDiagnostics_countP_db
      (consolidate fields dbMappings computedFields planType).1 1 i h
  · exact mkErrors_countP "Computed field is missing formula"
      (fun row => row.is_computed = "YES" ∧ row.formula = "")
      rowDiagnostics_countP_formula
      (consolidate fields dbMappings computedFields planType).1 1 i h

/-- Witness for C5: one field with no DB mapping produces exactly one
"Missing DB mapping" error at row 1. -/
theorem c5_consolidation_diagnostics_witness :
    (consolidate [c5Field] [] [] "MEDICAL").2.countP
      (fun e => e.row == 1 + 0 && e.message == "Missing DB mapping") = 1 := by
  have h := ((c5_consolidation_diagnostics [c5Field] [] [] "MEDICAL").2.2 0 (by decide)).1
  rw [h]
  rfl

/-- Claim C6 counterexample: with a spatial-data-less group sitting between
two same-row groups, the comparator never compares the outer two, and the
sort leaves the greater-`x` group in front of the smaller-`x` one — the two
required properties (same-row pairs ordered by `x`; pairs with a boxless
member keep their original order) are not jointly satisfiable here. -/
theorem c6_sort_counterexample :
    sortFieldsByPosition [c6cxA, c6cxN, c6cxB] = [c6cxA, c6cxN, c6cxB]
    ∧ (nodeY c6cxA - nodeY c6cxB).natAbs ≤ 20
    ∧ nodeX c6cxB < nodeX c6cxA :=
  ⟨rfl, by decide, by decide⟩

/-- Claim C6 (corrected): `sortFieldsByPosition` is a total permutation of
its input; any two groups where either lacks spatial data keep their
original relative order; and when every group has spatial data and all
groups lie pairwise in the same row (vertical delta at most 20), the output
is ordered by horizontal position ascending. -/
theorem c6_sort_amended (l : List FigmaNode) :
    (sortFieldsByPosition l).Perm l
    ∧ (∀ p q : FigmaNode,
        p.absoluteBoundingBox = none ∨ q.absoluteBoundingBox = none →
        [p, q].Sublist l → [p, q].Sublist (sortFieldsByPosition l))
    ∧ ((∀ g ∈ l, g.absoluteBoundingBox ≠ none) →
        (∀ g ∈ l, ∀ g2 ∈ l, (nodeY g - nodeY g2).natAbs ≤ 20) →
        (sortFieldsByPosition l).Pairwise fun a b => nodeX a ≤ nodeX b) := by
  refine ⟨perm_insertionSortJS cmpNodes l, ?_, ?_⟩
  · intro p q hnone hsub
    have h0 : cmpNodes p q ≤ 0 := by
      rcases hp : p.absoluteBoundingBox with _ | ab <;>
        rcases hq : q.absoluteBoundingBox with _ | bb
      · simp [cmpNodes, hp, hq]
      · simp [cmpNodes, hp, hq]
      · simp [cmpNodes, hp, hq]
      · rcases hnone with hn | hn
        · rw [hp] at hn; cases hn
        · rw [hq] at hn; cases hn
    exact stable_insertionSortJS cmpNodes p q h0 l hsub
  · intro hbox hrow
    apply pairwise_insertionSortJS nodeX cmpNodes l
    intro a ha b hb
    exact cmpNodes_eq_x a b (hbox a ha) (hbox b hb) (hrow a ha b hb)

/-- Witness for C6 on a two-element list with one boxless group. -/
theorem c6_sort_amended_witness :
    [c6wB, c6wN].Sublist (sortFieldsByPosition [c6wB, c6wN]) :=
  (c6_sort_amended [c6wB, c6wN]).2.1 c6wB c6wN (Or.inr rfl) (List.Sublist.refl _)

/-- Claim C7 counterexample: the grouping key is the underscore-joined
string, so two rows with *different* `(field_name, plan_type)` pairs can
collide and produce one record instead of one per distinct pair. -/
theorem c7_pair_key_counterexample :
    rowKey c7RowA = rowKey c7RowB
    ∧ c7RowA.field_name ≠ c7RowB.field_name
    ∧ (generateAllConfigs [c7RowA, c7RowB]).length = 1 :=
  ⟨rfl, by decide, rfl⟩

/-- Claim C7 (corrected): `generateAllConfigs` is deterministic and fully
characterized as one record per distinct underscore-joined
`field_name_plan_type` string key, in first-seen key order, each record
synthesized from the first row with that key and holding the screen
contexts of *all* rows with that key in row order (so two rows sharing
field name and plan type but differing in screen name yield exactly one
record with both contexts). -/
theorem c7_synthesizeAll_amended (rows : List ConsolidatedRow) :
    generateAllConfigs rows = (firstKeys rows).map (mergedRecord rows) :=
  generateAllConfigs_eq rows

/-- Claim C8 (confirmed): the primary walk only emits a field under a truthy
section context, so no extracted field ever carries an empty section. -/
theorem c8_fields_have_section (node : FigmaNode) (ctx : ExtractionContext) :
    ∀ f ∈ extractFieldsFromNode node ctx, f.sectionName ≠ "" :=
  extract_section_ne_pair.1 node ctx

/-- Witness for C8 on a concrete one-field tree. -/
theorem c8_fields_have_section_witness :
    c8DemoField ∈ extractFieldsFromNode c8DemoNode ⟨none, none, none⟩
    ∧ c8DemoField.sectionName ≠ "" := by
  have hmem : c8DemoField ∈ extractFieldsFromNode c8DemoNode ⟨none, none, none⟩ := by
    rw [show extractFieldsFromNode c8DemoNode ⟨none, none, none⟩ = [c8DemoField] from rfl]
    exact List.mem_singleton_self _
  exact ⟨hmem, c8_fields_have_section c8DemoNode ⟨none, none, none⟩ _ hmem⟩

/-- Claim C9 counterexample: for a currency field the placeholder is the
fixed constant `0.00`, not a value drawn from the row. -/
theorem c9_placeholder_counterexample :
    (generateConfigFromRow c9Row).field.ui_config.placeholder = "0.00"
    ∧ "0.00" ≠ c9Row.field_name :=
  ⟨rfl, by decide⟩

/-- Claim C9 (corrected): `generateConfigFromRow` draws the label and order
directly from the row and builds exactly one initial screen context from
the row's screen, section, subsection and order; the placeholder is the
row's field name except for currency fields, where it is the constant
`0.00`. -/
theorem c9_synthesize_amended (row : ConsolidatedRow) :
    (generateConfigFromRow row).field.ui_config.label = row.field_name
    ∧ (generateConfigFromRow row).field.ui_config.order = row.order
    ∧ (generateConfigFromRow row).field.ui_config.placeholder =
      (if inferFieldType row.field_name = "currency-input" then "0.00" else row.field_name)
    ∧ (generateConfigFromRow row).screen_contexts = [mkScreenCtx row] :=
  ⟨rfl, rfl, rfl, rfl⟩

/-- Claim C10 (confirmed): the joined key is not injective on
`(field_name, plan_type)` pairs — `"A_B"`/`"C"` and `"A"`/`"B_C"` share the
key `"A_B_C"` and are merged into a single record. -/
theorem c10_key_collision :
    rowKey c10RowA = rowKey c10RowB
    ∧ c10RowA.field_name ≠ c10RowB.field_name
    ∧ c10RowA.plan_type ≠ c10RowB.plan_type
    ∧ (generateAllConfigs [c10RowA, c10RowB]).length = 1 :=
  ⟨rfl, by decide, by decide, rfl⟩
